import Mathlib

/-!
# Verification of the Bedrock streaming completion client

Shallow embedding of `src/server/node_modules/langchain/dist/llms/bedrock.cjs`:
the `BedrockLLMInputOutputAdapter` (prepareInput / prepareOutput), the
`Bedrock` constructor's provider validation, and the streaming decode loop of
`_streamResponseChunks` / `_call`.

JavaScript values flowing through the adapter are JSON-shaped; we model them
with an inductive `Jval`. JS numbers are modelled as rationals (they are only
stored and printed, never computed with). JS `undefined` is modelled as
`Option.none` where a property read can miss; a thrown JS exception is
modelled with `Except.error`.
-/

/-- JSON-shaped JavaScript value. Object fields keep insertion order, as JS
objects and `JSON.stringify` do. -/
inductive Jval where
  | null
  | bool (b : Bool)
  | num (q : Rat)
  | str (s : String)
  | arr (elems : List Jval)
  | obj (fields : List (String × Jval))

/-- First-match association-list lookup for object fields (JSON object keys
are unique in all data handled here). -/
def lookupField : List (String × Jval) → String → Option Jval
  | [], _ => none
  | (k', v) :: rest, k => if k' = k then some v else lookupField rest k

/-- JS property access `v[k]`, as used by `prepareOutput` and the stream
decode loop: reading a property of `null` (or `undefined`) throws a
TypeError (`Except.error ()`); a missing key on an object, or a key on a
non-object primitive, yields `undefined` (`none`). -/
def jsProp (v : Jval) (k : String) : Except Unit (Option Jval) :=
  match v with
  | .null => .error ()
  | .obj fields => .ok (lookupField fields k)
  | _ => .ok none

/-- Rendering a JS number for `JSON.stringify`. Integral numbers print with
no decimal point; non-integral floats never occur in the verified scenarios
(float formatting is not modelled beyond the integral case). -/
def jsNumToString (q : Rat) : String :=
  if q.den = 1 then toString q.num else toString q

/-- JSON string escaping as performed by `JSON.stringify`. -/
def jsonEscapeChar (c : Char) : List Char :=
  if c = '"' then ['\\', '"']
  else if c = '\\' then ['\\', '\\']
  else if c = '\n' then ['\\', 'n']
  else if c = '\t' then ['\\', 't']
  else if c = '\r' then ['\\', 'r']
  else if c.toNat = 8 then ['\\', 'b']
  else if c.toNat = 12 then ['\\', 'f']
  else if c.toNat < 32 then
    ['\\', 'u', '0', '0',
      Nat.digitChar (c.toNat / 16), Nat.digitChar (c.toNat % 16)]
  else [c]

def jsonEscapeNoDelim (s : String) : String :=
  ⟨s.data.flatMap jsonEscapeChar⟩

def jsonQuote (s : String) : String :=
  "\"" ++ jsonEscapeNoDelim s ++ "\""

mutual
/-- `JSON.stringify` (no spacing argument), field order = insertion order. -/
def jsonStringify : Jval → String
  | .null => "null"
  | .bool b => if b then "true" else "false"
  | .num q => jsNumToString q
  | .str s => jsonQuote s
  | .arr elems => "[" ++ jsonStringifyElems elems ++ "]"
  | .obj fields => "\x7b" ++ jsonStringifyFields fields ++ "\x7d"

def jsonStringifyElems : List Jval → String
  | [] => ""
  | [v] => jsonStringify v
  | v :: rest => jsonStringify v ++ "," ++ jsonStringifyElems rest

def jsonStringifyFields : List (String × Jval) → String
  | [] => ""
  | [(k, v)] => jsonQuote k ++ ":" ++ jsonStringify v
  | (k, v) :: rest => jsonQuote k ++ ":" ++ jsonStringify v ++ "," ++ jsonStringifyFields rest
end

/-!
## 4.1 Request builder: `BedrockLLMInputOutputAdapter.prepareInput`

`static prepareInput(provider, prompt, maxTokens = 50, temperature = 0)`.
The JS default-parameter semantics (an `undefined` argument takes the
default) is modelled by `Option` arguments with `getD`.
-/

def prepareInput (provider : String) (prompt : String)
    (maxTokens : Option Rat) (temperature : Option Rat) : Jval :=
  let maxTokens := maxTokens.getD 50
  let temperature := temperature.getD 0
  if provider = "anthropic" then
    .obj [("prompt", .str prompt),
          ("max_tokens_to_sample", .num maxTokens),
          ("temperature", .num temperature)]
  else if provider = "ai21" then
    .obj [("prompt", .str prompt),
          ("maxTokens", .num maxTokens),
          ("temperature", .num temperature)]
  else if provider = "amazon" then
    .obj [("inputText", .str prompt),
          ("textGenerationConfig",
            .obj [("maxTokenCount", .num maxTokens),
                  ("temperature", .num temperature)])]
  else
    .obj []

/-!
## 4.1 Output adapter: `BedrockLLMInputOutputAdapter.prepareOutput`

`prepareOutput(provider, responseBody)` performs raw JS property reads:
`responseBody.completion`, `responseBody.data.text`, `responseBody.outputText`.
A missing terminal field therefore yields JS `undefined` (`Except.ok none`);
only `responseBody.data` being `undefined`/`null` on the ai21 path throws
(reading `.text` of `undefined`).
-/

def prepareOutput (provider : String) (responseBody : Jval) :
    Except Unit (Option Jval) :=
  if provider = "anthropic" then
    jsProp responseBody "completion"
  else if provider = "ai21" then
    match jsProp responseBody "data" with
    | .error e => .error e
    | .ok none => .error ()
    | .ok (some d) => jsProp d "text"
  else
    jsProp responseBody "outputText"

/-!
## Constructor provider validation (`Bedrock.constructor`)

```js
this.model = fields?.model ?? this.model;
const allowedModels = ["ai21", "anthropic", "amazon"];
if (!allowedModels.includes(this.model.split(".")[0])) {
  throw new Error(`Unknown model: '${this.model}', only these are supported: ${allowedModels}`);
}
```
This check runs in the constructor, before any request is built, signed or
dispatched (the embedding is a pure function; the source constructor performs
no network I/O). JS `String.prototype.split` with a single-character
separator is modelled by `jsSplitAux`.
-/

def jsSplitAux (sep : Char) : List Char → List Char → List (List Char)
  | [], acc => [acc.reverse]
  | c :: cs, acc =>
    if c = sep then acc.reverse :: jsSplitAux sep cs []
    else jsSplitAux sep cs (c :: acc)

/-- `model.split(sep)` for a one-character separator. -/
def jsSplitString (sep : Char) (s : String) : List String :=
  (jsSplitAux sep s.data []).map (fun cs => ⟨cs⟩)

/-- `this.model.split(".")[0]`: the provider segment of a model id. -/
def providerOf (model : String) : String :=
  (jsSplitString '.' model).headD ""

def allowedModels : List String := ["ai21", "anthropic", "amazon"]

/-- The constructor's error message
`` `Unknown model: '${this.model}', only these are supported: ${allowedModels}` ``
(a JS array interpolates as its comma-joined elements). -/
def unknownModelMsg (model : String) : String :=
  "Unknown model: '" ++ model ++ "', only these are supported: " ++
    String.intercalate "," allowedModels

/-- The provider-validation step of `Bedrock`'s constructor: `Except.error`
models the thrown configuration error. -/
def bedrockValidateModel (model : String) : Except String Unit :=
  if providerOf model ∈ allowedModels then .ok ()
  else .error (unknownModelMsg model)

-- Helper lemmas about the split model -----------------------------------

theorem jsSplitAux_ne_nil (sep : Char) :
    ∀ (l : List Char) (acc : List Char), jsSplitAux sep l acc ≠ [] := by
  intro l
  induction l with
  | nil => intro acc; simp [jsSplitAux]
  | cons c cs ih =>
    intro acc
    by_cases h : c = sep
    · simp [jsSplitAux, h]
    · simp [jsSplitAux, h]; exact ih (c :: acc)

theorem jsSplitAux_headD (sep : Char) :
    ∀ (l : List Char) (acc : List Char),
      (jsSplitAux sep l acc).headD [] = acc.reverse ++ l.takeWhile (· ≠ sep) := by
  intro l
  induction l with
  | nil => intro acc; simp [jsSplitAux]
  | cons c cs ih =>
    intro acc
    by_cases h : c = sep
    · simp [jsSplitAux, h, List.takeWhile]
    · simp only [jsSplitAux, if_neg h]
      rw [ih (c :: acc)]
      simp [List.takeWhile, h]

/-- The provider segment is the maximal dot-free leading run of the model id. -/
theorem providerOf_data (model : String) :
    (providerOf model).data = model.data.takeWhile (· ≠ '.') := by
  unfold providerOf jsSplitString
  obtain ⟨x, xs, hx⟩ :=
    List.exists_cons_of_ne_nil (jsSplitAux_ne_nil '.' model.data [])
  have h := jsSplitAux_headD '.' model.data []
  rw [hx] at h ⊢
  simpa using h

/-- The provider segment occurs inside the constructor's error message. -/
theorem providerOf_infix_msg (model : String) :
    (providerOf model).data <:+: (unknownModelMsg model).data := by
  have hpre : (providerOf model).data <+: model.data := by
    rw [providerOf_data]
    exact List.takeWhile_prefix _
  obtain ⟨r, hr⟩ := hpre
  refine ⟨"Unknown model: '".data,
    r ++ ("', only these are supported: " ++ String.intercalate "," allowedModels).data, ?_⟩
  unfold unknownModelMsg
  rw [String.data_append, String.data_append, String.data_append,
    String.data_append, ← hr]
  simp

/-!
## Claims about the adapter and constructor
-/

/-- C1: for each supported provider, `prepareInput` returns a payload with
exactly the fields of spec §4.1 and no extras; omitted maxTokens defaults to
50 and omitted temperature to 0; and the amazon payload for prompt "Say hi",
maxTokens 10, temperature 0 serializes to exactly the documented JSON. -/
theorem prepareInput_exact_fields :
    (∀ p m t, prepareInput "anthropic" p (some m) (some t) =
      .obj [("prompt", .str p), ("max_tokens_to_sample", .num m),
            ("temperature", .num t)]) ∧
    (∀ p m t, prepareInput "ai21" p (some m) (some t) =
      .obj [("prompt", .str p), ("maxTokens", .num m),
            ("temperature", .num t)]) ∧
    (∀ p m t, prepareInput "amazon" p (some m) (some t) =
      .obj [("inputText", .str p),
            ("textGenerationConfig",
              .obj [("maxTokenCount", .num m), ("temperature", .num t)])]) ∧
    (∀ prov p, prepareInput prov p none none =
      prepareInput prov p (some 50) (some 0)) ∧
    jsonStringify (prepareInput "amazon" "Say hi" (some 10) (some 0)) =
      "\x7b\"inputText\":\"Say hi\",\"textGenerationConfig\":\x7b\"maxTokenCount\":10,\"temperature\":0\x7d\x7d" :=
  ⟨fun _ _ _ => rfl, fun _ _ _ => rfl, fun _ _ _ => rfl,
   fun _ _ => rfl, by decide⟩

/-- C2 counterexample: for provider anthropic and a response body missing
`completion`, `prepareOutput` does NOT fail — it returns JS `undefined`
(`Except.ok none`), contradicting the claim that a missing field is a
caller-visible error. -/
theorem prepareOutput_missing_field_no_error :
    prepareOutput "anthropic" (Jval.obj []) = Except.ok none ∧
    prepareOutput "anthropic" (Jval.obj []) ≠ Except.error () :=
  ⟨rfl, fun h => Except.noConfusion h⟩

/-- C2 (amended): `prepareOutput` reads the documented field path
(anthropic: `completion`; ai21: `data.text`; any other provider:
`outputText`), but a missing terminal field yields JS `undefined`
(`Except.ok none`) rather than an error; only the ai21 path throws, when
`data` itself is missing. -/
theorem prepareOutput_field_paths :
    (∀ fields, prepareOutput "anthropic" (.obj fields) =
      .ok (lookupField fields "completion")) ∧
    (∀ fields, lookupField fields "data" = none →
      prepareOutput "ai21" (.obj fields) = .error ()) ∧
    (∀ fields d, lookupField fields "data" = some (.obj d) →
      prepareOutput "ai21" (.obj fields) = .ok (lookupField d "text")) ∧
    (∀ prov fields, prov ≠ "anthropic" → prov ≠ "ai21" →
      prepareOutput prov (.obj fields) = .ok (lookupField fields "outputText")) := by
  refine ⟨fun fields => rfl, ?_, ?_, ?_⟩
  · intro fields h
    simp [prepareOutput, jsProp, h]
  · intro fields d h
    simp [prepareOutput, jsProp, h]
  · intro prov fields h1 h2
    simp only [prepareOutput, if_neg h1, if_neg h2]
    rfl

/-- Witness for the amended C2 at concrete inputs. -/
theorem prepareOutput_field_paths_witness :
    prepareOutput "ai21" (Jval.obj []) = Except.error () :=
  prepareOutput_field_paths.2.1 [] rfl

/-- C3: constructing a client whose model id's first dot-separated segment
is not one of ai21/anthropic/amazon fails in the constructor (before any
network activity — the validation is a pure check preceding request
construction), with an error message in which the unrecognized provider
segment occurs; in particular model id "unknown.foo-v1" fails and the
provider segment is "unknown". -/
theorem bedrock_ctor_unknown_provider :
    (∀ model, providerOf model ∉ allowedModels →
      bedrockValidateModel model = .error (unknownModelMsg model) ∧
      (providerOf model).data <:+: (unknownModelMsg model).data) ∧
    (bedrockValidateModel "unknown.foo-v1" =
      .error "Unknown model: 'unknown.foo-v1', only these are supported: ai21,anthropic,amazon" ∧
      providerOf "unknown.foo-v1" = "unknown") := by
  refine ⟨?_, rfl, by decide⟩
  intro model h
  refine ⟨?_, providerOf_infix_msg model⟩
  unfold bedrockValidateModel
  rw [if_neg h]

/-- Witness for C3 at the concrete model id "unknown.foo-v1". -/
theorem bedrock_ctor_unknown_provider_witness :
    bedrockValidateModel "unknown.foo-v1" =
      .error (unknownModelMsg "unknown.foo-v1") ∧
    (providerOf "unknown.foo-v1").data <:+:
      (unknownModelMsg "unknown.foo-v1").data :=
  bedrock_ctor_unknown_provider.1 "unknown.foo-v1" (by decide)

/-- C10: for any provider outside the three known ones, `prepareInput`
returns the empty object — the adapter performs no provider validation of
its own. -/
theorem prepareInput_unknown_provider_empty :
    ∀ provider prompt m t,
      provider ≠ "anthropic" → provider ≠ "ai21" → provider ≠ "amazon" →
      prepareInput provider prompt m t = .obj [] := by
  intro provider prompt m t h1 h2 h3
  simp only [prepareInput, if_neg h1, if_neg h2, if_neg h3]

/-- Witness for C10 at a concrete unrecognized provider. -/
theorem prepareInput_unknown_provider_empty_witness :
    prepareInput "cohere" "hi" none none = Jval.obj [] :=
  prepareInput_unknown_provider_empty "cohere" "hi" none none
    (by decide) (by decide) (by decide)

/-!
## Byte-level codecs used by the stream decode loop

`_streamResponseChunks` unwraps each accepted event's payload as:
`JSON.parse(Buffer.from(JSON.parse(new TextDecoder("utf-8").decode(event.body)).bytes, "base64").toString())`.
Bytes are modelled as `List Nat` (each < 256).
-/

/-- UTF-8 encoding of one character (1–4 bytes). -/
def utf8EncodeCharB (c : Char) : List Nat :=
  let v := c.toNat
  if v < 128 then [v]
  else if v < 2048 then [192 + v / 64, 128 + v % 64]
  else if v < 65536 then [224 + v / 4096, 128 + (v / 64) % 64, 128 + v % 64]
  else [240 + v / 262144, 128 + (v / 4096) % 64, 128 + (v / 64) % 64,
        128 + v % 64]

def utf8EncodeList (cs : List Char) : List Nat :=
  cs.flatMap utf8EncodeCharB

def utf8Encode (s : String) : List Nat := utf8EncodeList s.data

/-- U+FFFD, the replacement character emitted by a non-fatal `TextDecoder`. -/
def replChar : Char := Char.ofNat 65533

def isCont (b : Nat) : Bool := 128 ≤ b && b < 192

/-- Character from a decoded scalar value; invalid scalar values (e.g.
surrogate halves) become U+FFFD as in a non-fatal `TextDecoder`. -/
def mkCharLossy (n : Nat) : Char :=
  if Nat.isValidChar n then Char.ofNat n else replChar

mutual

/-- `new TextDecoder("utf-8").decode(bytes)`: the default non-fatal decoder —
malformed sequences produce U+FFFD instead of throwing. (WHATWG details for
malformed input — overlong rejection, resynchronization at a bad
continuation byte — are simplified; no verified scenario contains a
malformed sequence.) -/
def utf8DecodeLossy : List Nat → List Char
  | [] => []
  | b :: rest =>
    if b < 128 then Char.ofNat b :: utf8DecodeLossy rest
    else if b < 192 then replChar :: utf8DecodeLossy rest
    else utf8DecodeMulti b rest

/-- Continuation-byte handling for a multi-byte lead byte `b ≥ 192`. -/
def utf8DecodeMulti (b : Nat) : List Nat → List Char
  | [] => [replChar]
  | b2 :: rest2 =>
    if b < 224 then
      (if isCont b2 then mkCharLossy ((b - 192) * 64 + (b2 - 128))
       else replChar) :: utf8DecodeLossy rest2
    else
      match rest2 with
      | [] => [replChar]
      | b3 :: rest3 =>
        if b < 240 then
          (if isCont b2 && isCont b3 then
            mkCharLossy ((b - 224) * 4096 + (b2 - 128) * 64 + (b3 - 128))
           else replChar) :: utf8DecodeLossy rest3
        else
          match rest3 with
          | [] => [replChar]
          | b4 :: rest4 =>
            (if isCont b2 && isCont b3 && isCont b4 then
              mkCharLossy ((b - 240) * 262144 + (b2 - 128) * 4096 +
                (b3 - 128) * 64 + (b4 - 128))
             else replChar) :: utf8DecodeLossy rest4

end

/-- Standard base64 alphabet, index 0–63. -/
def b64Char (n : Nat) : Char :=
  if n < 26 then Char.ofNat (65 + n)
  else if n < 52 then Char.ofNat (97 + (n - 26))
  else if n < 62 then Char.ofNat (48 + (n - 52))
  else if n = 62 then '+'
  else '/'

def b64EncodeChunks : List Nat → List Char
  | x :: y :: z :: rest =>
    b64Char (x / 4) :: b64Char ((x % 4) * 16 + y / 16) ::
      b64Char ((y % 16) * 4 + z / 64) :: b64Char (z % 64) ::
      b64EncodeChunks rest
  | [x, y] =>
    [b64Char (x / 4), b64Char ((x % 4) * 16 + y / 16),
     b64Char ((y % 16) * 4), '=']
  | [x] => [b64Char (x / 4), b64Char ((x % 4) * 16), '=', '=']
  | [] => []

def b64Encode (bs : List Nat) : String := ⟨b64EncodeChunks bs⟩

def b64CharVal (c : Char) : Option Nat :=
  let v := c.toNat
  if 65 ≤ v ∧ v ≤ 90 then some (v - 65)
  else if 97 ≤ v ∧ v ≤ 122 then some (26 + (v - 97))
  else if 48 ≤ v ∧ v ≤ 57 then some (52 + (v - 48))
  else if c = '+' then some 62
  else if c = '/' then some 63
  else none

def b64DecodeVals : List Nat → List Nat
  | a :: b :: c :: d :: rest =>
    (a * 4 + b / 16) :: ((b % 16) * 16 + c / 4) :: ((c % 4) * 64 + d) ::
      b64DecodeVals rest
  | [a, b] => [a * 4 + b / 16]
  | [a, b, c] => [a * 4 + b / 16, (b % 16) * 16 + c / 4]
  | _ => []

/-- `Buffer.from(str, "base64")` (Node): lenient — characters outside the
alphabet (including `=` padding) are skipped, then 6-bit groups are packed
into bytes. -/
def b64DecodeLenient (s : String) : List Nat :=
  b64DecodeVals (s.data.filterMap b64CharVal)

/-!
## `JSON.parse`

A fueled recursive-descent parser for the JSON grammar. The fuel only bounds
nesting of the recursion and is chosen large enough for any input
(`length + 1`).
-/

def jsonWsChar (c : Char) : Bool :=
  c = ' ' || c = '\n' || c = '\r' || c = '\t'

def skipWs (cs : List Char) : List Char := cs.dropWhile jsonWsChar

def hexVal (c : Char) : Nat :=
  if 48 ≤ c.toNat ∧ c.toNat ≤ 57 then c.toNat - 48
  else if 97 ≤ c.toNat ∧ c.toNat ≤ 102 then 10 + (c.toNat - 97)
  else if 65 ≤ c.toNat ∧ c.toNat ≤ 70 then 10 + (c.toNat - 65)
  else 0

def isHexDigit (c : Char) : Bool :=
  (48 ≤ c.toNat && c.toNat ≤ 57) || (97 ≤ c.toNat && c.toNat ≤ 102) ||
    (65 ≤ c.toNat && c.toNat ≤ 70)

/-- The single-character JSON string escapes. -/
def escChar (e : Char) : Option Char :=
  if e = '"' then some '"'
  else if e = '\\' then some '\\'
  else if e = '/' then some '/'
  else if e = 'b' then some (Char.ofNat 8)
  else if e = 'f' then some (Char.ofNat 12)
  else if e = 'n' then some '\n'
  else if e = 'r' then some '\r'
  else if e = 't' then some '\t'
  else none

/-- Parse a JSON string body after the opening quote, returning the decoded
characters and the remainder after the closing quote. -/
def parseStringBody : List Char → Option (List Char × List Char)
  | [] => none
  | c :: rest =>
    if c = '"' then some ([], rest)
    else if c = '\\' then
      match rest with
      | [] => none
      | e :: rest2 =>
        if e = 'u' then
          match rest2 with
          | a :: b :: c2 :: d :: rest3 =>
            if isHexDigit a && isHexDigit b && isHexDigit c2 && isHexDigit d then
              (parseStringBody rest3).map (fun (cs, r) =>
                (mkCharLossy (hexVal a * 4096 + hexVal b * 256 +
                  hexVal c2 * 16 + hexVal d) :: cs, r))
            else none
          | _ => none
        else
          match escChar e with
          | some ec =>
            (parseStringBody rest2).map (fun (cs, r) => (ec :: cs, r))
          | none => none
    else (parseStringBody rest).map (fun (cs, r) => (c :: cs, r))

def digitsToNat (ds : List Char) : Nat :=
  ds.foldl (fun acc c => acc * 10 + (c.toNat - 48)) 0

/-- Parse a JSON number (integer, fraction, exponent) as a rational. -/
def parseNumber (cs : List Char) : Option (Rat × List Char) :=
  let (neg, cs1) := match cs with
    | '-' :: r => (true, r)
    | _ => (false, cs)
  let ip := cs1.takeWhile Char.isDigit
  let cs2 := cs1.dropWhile Char.isDigit
  if ip.isEmpty then none
  else
    let (fp, cs3) := match cs2 with
      | '.' :: r => (r.takeWhile Char.isDigit, r.dropWhile Char.isDigit)
      | _ => ([], cs2)
    let expPart : Option (Int × List Char) := match cs3 with
      | 'e' :: '+' :: r | 'E' :: '+' :: r =>
        if (r.takeWhile Char.isDigit).isEmpty then none
        else some ((digitsToNat (r.takeWhile Char.isDigit) : Int),
          r.dropWhile Char.isDigit)
      | 'e' :: '-' :: r | 'E' :: '-' :: r =>
        if (r.takeWhile Char.isDigit).isEmpty then none
        else some (-(digitsToNat (r.takeWhile Char.isDigit) : Int),
          r.dropWhile Char.isDigit)
      | 'e' :: r | 'E' :: r =>
        if (r.takeWhile Char.isDigit).isEmpty then none
        else some ((digitsToNat (r.takeWhile Char.isDigit) : Int),
          r.dropWhile Char.isDigit)
      | _ => some (0, cs3)
    match expPart with
    | none => none
    | some (ex, cs4) =>
      let mant : Rat := (digitsToNat ip : Rat) +
        (digitsToNat fp : Rat) / ((10 : Rat) ^ fp.length)
      let v : Rat := mant * (10 : Rat) ^ ex
      some (if neg then -v else v, cs4)

mutual

def parseJValue : Nat → List Char → Option (Jval × List Char)
  | 0, _ => none
  | fuel + 1, cs =>
    match skipWs cs with
    | 'n' :: 'u' :: 'l' :: 'l' :: rest => some (.null, rest)
    | 't' :: 'r' :: 'u' :: 'e' :: rest => some (.bool true, rest)
    | 'f' :: 'a' :: 'l' :: 's' :: 'e' :: rest => some (.bool false, rest)
    | '"' :: rest =>
      match parseStringBody rest with
      | some (chars, rest2) => some (.str ⟨chars⟩, rest2)
      | none => none
    | '{' :: rest =>
      (match skipWs rest with
       | '}' :: rest2 => some (.obj [], rest2)
       | _ =>
         match parseJMembers fuel (skipWs rest) with
         | some (fields, rest2) => some (.obj fields, rest2)
         | none => none)
    | '[' :: rest =>
      (match skipWs rest with
       | ']' :: rest2 => some (.arr [], rest2)
       | _ =>
         match parseJElems fuel (skipWs rest) with
         | some (elems, rest2) => some (.arr elems, rest2)
         | none => none)
    | rest =>
      match parseNumber rest with
      | some (q, rest2) => some (.num q, rest2)
      | none => none

def parseJMembers : Nat → List Char → Option (List (String × Jval) × List Char)
  | 0, _ => none
  | fuel + 1, cs =>
    match skipWs cs with
    | '"' :: rest =>
      (match parseStringBody rest with
       | some (kcs, rest2) =>
         (match skipWs rest2 with
          | ':' :: rest3 =>
            (match parseJValue fuel rest3 with
             | some (v, rest4) =>
               (match skipWs rest4 with
                | ',' :: rest5 =>
                  (match parseJMembers fuel rest5 with
                   | some (fields, rest6) => some ((⟨kcs⟩, v) :: fields, rest6)
                   | none => none)
                | '}' :: rest5 => some ([(⟨kcs⟩, v)], rest5)
                | _ => none)
             | none => none)
          | _ => none)
       | none => none)
    | _ => none

def parseJElems : Nat → List Char → Option (List Jval × List Char)
  | 0, _ => none
  | fuel + 1, cs =>
    match parseJValue fuel cs with
    | some (v, rest) =>
      (match skipWs rest with
       | ',' :: rest2 =>
         (match parseJElems fuel rest2 with
          | some (elems, rest3) => some (v :: elems, rest3)
          | none => none)
       | ']' :: rest2 => some ([v], rest2)
       | _ => none)
    | none => none

end

/-- `JSON.parse`: `none` models a thrown `SyntaxError`. -/
def jsonParse (s : String) : Option Jval :=
  match parseJValue (s.length + 1) s.data with
  | some (v, rest) => if skipWs rest = [] then some v else none
  | none => none


/-!
## The streaming decode loop (`Bedrock._streamResponseChunks`)

Each raw frame has already passed the binary event-stream codec
(`this.codec.decode(chunk)`, an external smithy primitive); the loop input is
therefore modelled as the list of decoded events, each a header map plus
payload bytes. Errors thrown inside the loop terminate the stream; chunks
yielded before the error remain with the caller, which the model captures by
returning the yielded chunks alongside the optional terminal error.
-/

structure DecodedEvent where
  headers : List (String × String)
  body : List Nat

def lookupHeader : List (String × String) → String → Option String
  | [], _ => none
  | (k', v) :: rest, k => if k' = k then some v else lookupHeader rest k

inductive StreamError where
  /-- non-2xx status: `Error(\x60Failed to access underlying url ...\x60)`
  carrying status, statusText and the eagerly read body text. -/
  | transport (status : Nat) (statusText : String) (bodyText : String)
  /-- `Error(\x60Failed to get event chunk: got ...\x60)` for a rejected event. -/
  | eventChunk (e : DecodedEvent)
  /-- a JS TypeError (property read on undefined/null, or `Buffer.from` on a
  non-string). -/
  | typeErr
  /-- a JS SyntaxError thrown by `JSON.parse`. -/
  | jsonErr
  /-- the caller's cancellation signal aborted the request dispatch
  (`this.caller.callWithOptions({ signal: options.signal }, ...)`). -/
  | aborted

/-- `GenerationChunk({ text, generationInfo: {} })`; `text` is whatever
`prepareOutput` returned (possibly JS `undefined`). -/
structure TextChunk where
  text : Option Jval

/-- The event validation
`event.headers[":event-type"].value !== "chunk" || event.headers[":content-type"].value !== "application/json"`,
with JS evaluation order: a missing header throws a TypeError reading
`.value`; a present-but-wrong value throws the "Failed to get event chunk"
error. -/
def headerStage (e : DecodedEvent) : Except StreamError Unit :=
  match lookupHeader e.headers ":event-type" with
  | none => .error .typeErr
  | some et =>
    if et ≠ "chunk" then .error (.eventChunk e)
    else
      match lookupHeader e.headers ":content-type" with
      | none => .error .typeErr
      | some ct =>
        if ct ≠ "application/json" then .error (.eventChunk e)
        else .ok ()

/-- The three-layer payload unwrap:
`JSON.parse(Buffer.from(JSON.parse(new TextDecoder("utf-8").decode(event.body)).bytes, "base64").toString())`
— UTF-8 decode, JSON parse, read `.bytes`, base64 decode, UTF-8 decode,
JSON parse, in that order. -/
def decodeBody (payload : List Nat) : Except StreamError Jval :=
  match jsonParse ⟨utf8DecodeLossy payload⟩ with
  | none => .error .jsonErr
  | some env =>
    match jsProp env "bytes" with
    | .error _ => .error .typeErr
    | .ok none => .error .typeErr
    | .ok (some (.str b)) =>
      match jsonParse ⟨utf8DecodeLossy (b64DecodeLenient b)⟩ with
      | none => .error .jsonErr
      | some body => .ok body
    | .ok (some _) => .error .typeErr

/-- Modelled from the spec: the per-chunk progress observer
`runManager?.handleLLMNewToken(text)`. The callback-manager implementation is
not under src/ (only its call site in `bedrock.cjs` is); per spec §5,
"failures in the observer must not be allowed to crash the decode loop —
observer errors are caught and ignored/logged, not propagated into the
stream", so the wrapper swallows the observer's error. -/
def safeObserve (obs : Option Jval → Except Unit Unit) (t : Option Jval) :
    Unit :=
  match obs t with
  | .ok _ => ()
  | .error _ => ()

/-- The per-frame body of the decode loop: header validation, three-layer
payload unwrap, and output-field extraction
(`const text = BedrockLLMInputOutputAdapter.prepareOutput(provider, body)`).
A `prepareOutput` throw (ai21 with missing `data`) becomes a TypeError. -/
def processEvent (provider : String) (e : DecodedEvent) :
    Except StreamError (Option Jval) :=
  match headerStage e with
  | .error er => .error er
  | .ok _ =>
    match decodeBody e.body with
    | .error er => .error er
    | .ok body =>
      match prepareOutput provider body with
      | .error _ => .error .typeErr
      | .ok t => .ok t

/-- One pass of the `for await` decode loop over the decoded events.
Returns (chunks yielded in order, observer notifications in order, terminal
error if the loop threw). A chunk is yielded, then the observer notified,
then the loop continues with the next frame. -/
def streamEvents (provider : String) (obs : Option Jval → Except Unit Unit) :
    List DecodedEvent → List TextChunk × List (Option Jval) × Option StreamError
  | [] => ([], [], none)
  | e :: rest =>
    match processEvent provider e with
    | .error er => ([], [], some er)
    | .ok t =>
      let _ := safeObserve obs t
      let r := streamEvents provider obs rest
      (⟨t⟩ :: r.1, t :: r.2.1, r.2.2)

/-- The HTTP response handed back by the injected `fetchFn`: status line,
eagerly readable body text (used only in the error message), and the decoded
event frames of the streaming body. -/
structure HttpResponse where
  status : Nat
  statusText : String
  bodyText : String
  frames : List DecodedEvent

/-- The response-handling tail of `_streamResponseChunks`:
`if (response.status < 200 || response.status >= 300) throw ...` and
otherwise the decode loop over the body's frames. -/
def invokeStream (provider : String) (obs : Option Jval → Except Unit Unit)
    (resp : HttpResponse) :
    List TextChunk × List (Option Jval) × Option StreamError :=
  if resp.status < 200 ∨ 300 ≤ resp.status then
    ([], [], some (.transport resp.status resp.statusText resp.bodyText))
  else streamEvents provider obs resp.frames

/-- An absent `runManager` (`runManager?.` short-circuits to no-op). -/
def noObserver : Option Jval → Except Unit Unit := fun _ => .ok ()

/-- JS `String(v)` as applied by `Array.prototype.join` to a non-null
element. -/
def jsToDisplay : Jval → String
  | .null => "null"
  | .bool b => if b then "true" else "false"
  | .num q => jsNumToString q
  | .str s => s
  | .arr es => jsArrDisplay es
  | .obj _ => "[object Object]"
where
  jsArrDisplay : List Jval → String
    | [] => ""
    | [.null] => ""
    | [v] => jsToDisplay v
    | .null :: rest => "," ++ jsArrDisplay rest
    | v :: rest => jsToDisplay v ++ "," ++ jsArrDisplay rest

/-- One element of `chunks.map((chunk) => chunk.text).join("")`: `join`
renders `undefined` and `null` elements as the empty string. -/
def joinTextElem : Option Jval → String
  | none => ""
  | some .null => ""
  | some v => jsToDisplay v

def joinChunks (cs : List TextChunk) : String :=
  String.join (cs.map (fun c => joinTextElem c.text))

/-- `Bedrock._call`: drains `_streamResponseChunks` into an array and returns
`chunks.map((chunk) => chunk.text).join("")`; an error thrown by the
generator propagates out of `_call`. -/
def bedrockCall (provider : String) (resp : HttpResponse) :
    Except StreamError String :=
  match invokeStream provider noObserver resp with
  | (_, _, some er) => .error er
  | (cs, _, none) => .ok (joinChunks cs)

/-- The cancellation signal as wired in the source: `options.signal` is
passed only to `this.caller.callWithOptions({ signal: options.signal }, ...)`
around the `fetch` dispatch. It is NOT forwarded to `fetchFn`'s init object,
the decode loop never consults it, and no code path calls
`reader.releaseLock()`/`reader.cancel()`. `firesAfterChunks` states when the
caller's signal fires relative to the yielded chunks; it is unused on the
streaming path, faithful to the signal's absence from the source loop. -/
def invokeStreamWithSignal (provider : String)
    (obs : Option Jval → Except Unit Unit) (resp : HttpResponse)
    (firedBeforeDispatch : Bool) (firesAfterChunks : Option Nat) :
    List TextChunk × List (Option Jval) × Option StreamError :=
  if firedBeforeDispatch then ([], [], some .aborted)
  else invokeStream provider obs resp

/-!
## Concrete frames for the witnesses and scenario claims
-/

/-- The ProviderC (amazon) body `{outputText:"hi"}` of the round-trip
scenario. -/
def innerBodyHi : Jval := .obj [("outputText", .str "hi")]

/-- The synthetic accepted event payload: UTF-8 of the JSON envelope whose
`bytes` field is the base64 of the UTF-8 of the provider body's JSON text —
the exact three-layer wire encoding. -/
def syntheticPayload : List Nat :=
  utf8Encode (jsonStringify
    (.obj [("bytes", .str (b64Encode (utf8Encode (jsonStringify innerBodyHi))))]))

def syntheticEvent : DecodedEvent :=
  ⟨[(":event-type", "chunk"), (":content-type", "application/json")],
    syntheticPayload⟩

/-- A frame with event-type `error` instead of `chunk`. -/
def errorEvent : DecodedEvent :=
  ⟨[(":event-type", "error"), (":content-type", "application/json")],
    syntheticPayload⟩


/-!
## Claims about the streaming loop
-/

/-- Splitting the decode loop at a list boundary: an error in the first part
ends the stream there; otherwise the outputs concatenate. -/
theorem streamEvents_append (provider : String)
    (obs : Option Jval → Except Unit Unit) (l1 l2 : List DecodedEvent) :
    streamEvents provider obs (l1 ++ l2) =
      match streamEvents provider obs l1 with
      | (cs, ns, some er) => (cs, ns, some er)
      | (cs, ns, none) =>
        (cs ++ (streamEvents provider obs l2).1,
          ns ++ (streamEvents provider obs l2).2.1,
          (streamEvents provider obs l2).2.2) := by
  induction l1 with
  | nil => simp [streamEvents]
  | cons p ps ih =>
    simp only [List.cons_append, streamEvents]
    cases hh : processEvent provider p with
    | error er => rfl
    | ok t =>
      simp only [List.append_eq]
      rw [ih]
      rcases hr : streamEvents provider obs ps with ⟨cs, ns, r⟩
      cases r <;> simp

/-- C4: an event passes validation iff its `:event-type` is `"chunk"` and
its `:content-type` is `"application/json"`; any event failing validation
ends the stream with the decode error, yields no chunk for that frame, and
leaves the previously yielded chunks (and observer notifications) intact. -/
theorem stream_rejects_invalid_event :
    (∀ e, headerStage e = .ok () ↔
      (lookupHeader e.headers ":event-type" = some "chunk" ∧
       lookupHeader e.headers ":content-type" = some "application/json")) ∧
    (∀ provider obs pre e post cs ns er,
      streamEvents provider obs pre = (cs, ns, none) →
      headerStage e = .error er →
      streamEvents provider obs (pre ++ e :: post) = (cs, ns, some er)) := by
  constructor
  · intro e
    cases h1 : lookupHeader e.headers ":event-type" with
    | none => simp [headerStage, h1]
    | some et =>
      cases h2 : lookupHeader e.headers ":content-type" with
      | none =>
        by_cases he : et = "chunk" <;> simp [headerStage, h1, h2, he]
      | some ct =>
        by_cases he : et = "chunk"
        · by_cases hc : ct = "application/json" <;>
            simp [headerStage, h1, h2, he, hc]
        · simp [headerStage, h1, h2, he]
  · intro provider obs pre e post cs ns er hpre he
    rw [streamEvents_append, hpre]
    have hproc : processEvent provider e = .error er := by
      unfold processEvent
      rw [he]
    simp [streamEvents, hproc]

/-- Witness for C4: a stream with one good frame, then an `error`-typed
frame, then another good frame yields exactly the first chunk and the
decode error of the bad frame. -/
theorem stream_rejects_invalid_event_witness :
    streamEvents "amazon" noObserver
        ([syntheticEvent] ++ errorEvent :: [syntheticEvent]) =
      ([⟨some (.str "hi")⟩], [some (.str "hi")],
        some (.eventChunk errorEvent)) :=
  stream_rejects_invalid_event.2 "amazon" noObserver [syntheticEvent]
    errorEvent [syntheticEvent] [⟨some (.str "hi")⟩] [some (.str "hi")]
    (.eventChunk errorEvent) rfl rfl

/-- C6: any response with status outside 2xx makes the call fail with the
transport error carrying the status code, status text and eagerly read body
text, and zero chunks are produced. -/
theorem transport_error_non2xx :
    ∀ provider obs resp, resp.status < 200 ∨ 300 ≤ resp.status →
      invokeStream provider obs resp =
        ([], [], some (.transport resp.status resp.statusText resp.bodyText)) := by
  intro provider obs resp h
  unfold invokeStream
  rw [if_pos h]

/-- Witness for C6: a 403 response fails with the transport error and no
chunks, even though decodable frames are present in the body. -/
theorem transport_error_non2xx_witness :
    invokeStream "amazon" noObserver
        ⟨403, "Forbidden", "denied", [syntheticEvent]⟩ =
      ([], [], some (.transport 403 "Forbidden" "denied")) :=
  transport_error_non2xx "amazon" noObserver
    ⟨403, "Forbidden", "denied", [syntheticEvent]⟩ (Or.inr (by decide))

/-- C7: when the stream completes without error, `_call` returns exactly the
in-order concatenation of the yielded chunks' text fields, and the empty
string when no chunk was yielded. -/
theorem call_concats_chunks :
    ∀ provider resp cs ns,
      invokeStream provider noObserver resp = (cs, ns, none) →
      bedrockCall provider resp =
        .ok (String.join (cs.map (fun c => joinTextElem c.text))) ∧
      (cs = [] → bedrockCall provider resp = .ok "") := by
  intro provider resp cs ns h
  constructor
  · unfold bedrockCall
    rw [h]
    rfl
  · intro hcs
    subst hcs
    unfold bedrockCall
    rw [h]
    rfl

/-- Witness for C7: two good frames produce chunks "hi","hi" and `_call`
returns "hihi". -/
theorem call_concats_chunks_witness :
    bedrockCall "amazon" ⟨200, "OK", "", [syntheticEvent, syntheticEvent]⟩ =
      .ok "hihi" :=
  (call_concats_chunks "amazon"
    ⟨200, "OK", "", [syntheticEvent, syntheticEvent]⟩
    [⟨some (.str "hi")⟩, ⟨some (.str "hi")⟩]
    [some (.str "hi"), some (.str "hi")] rfl).1

/-- C8: the per-chunk observer is notified exactly once per yielded chunk
(the notification list equals the chunk texts, in order), and the loop's
output is identical for any two observers — in particular a throwing
observer never terminates the loop or changes what is yielded, since
`safeObserve` (modelled from spec §5) swallows the observer's result. -/
theorem observer_failures_ignored :
    ∀ provider obs obs' events,
      streamEvents provider obs events = streamEvents provider obs' events ∧
      (streamEvents provider obs events).2.1 =
        (streamEvents provider obs events).1.map TextChunk.text := by
  intro provider obs obs' events
  induction events with
  | nil => exact ⟨rfl, rfl⟩
  | cons e rest ih =>
    cases hp : processEvent provider e with
    | error er => constructor <;> simp [streamEvents, hp]
    | ok t =>
      obtain ⟨ih1, ih2⟩ := ih
      constructor
      · simp [streamEvents, hp, ih1]
      · simp [streamEvents, hp, ih2]

/-- Two valid chunk frames behind a 200 response. -/
def respTwoFrames : HttpResponse := ⟨200, "OK", "", [syntheticEvent, syntheticEvent]⟩

/-- C9 (divergence): the source's decode loop never observes the caller's
cancellation signal (it is passed only to the wrapper around the `fetch`
dispatch and not to `fetchFn`, and never consulted in the loop), and never
releases the reader. Concretely, with the signal firing after 1 chunk, both
chunks are still yielded and the run terminates as a normal completion, not
as a cancellation; in general the streaming outcome is independent of when
the signal fires. -/
theorem cancellation_not_implemented :
    invokeStreamWithSignal "amazon" noObserver respTwoFrames false (some 1) =
      ([⟨some (.str "hi")⟩, ⟨some (.str "hi")⟩],
        [some (.str "hi"), some (.str "hi")], none) ∧
    (∀ provider obs resp n m,
      invokeStreamWithSignal provider obs resp false n =
        invokeStreamWithSignal provider obs resp false m) :=
  ⟨rfl, fun _ _ _ _ _ => rfl⟩

/-!
## Round-trip lemmas for the three payload layers (claim C5)
-/

theorem charToNat_ofNat (n : Nat) (h : n.isValidChar) :
    (Char.ofNat n).toNat = n := by
  simp [Char.ofNat, h, Char.toNat, Char.ofNatAux]
  rfl

/-- Characters that `JSON.stringify` emits verbatim inside a string literal:
not `"` (34), not `\` (92), not a control character. -/
def jsonPlainChar (c : Char) : Bool :=
  c.toNat ≠ 34 && c.toNat ≠ 92 && 32 ≤ c.toNat

theorem b64CharVal_b64Char : ∀ n, n < 64 → b64CharVal (b64Char n) = some n := by
  decide

theorem b64Char_toNat (n : Nat) :
    (b64Char n).toNat < 128 ∧ (b64Char n).toNat ≠ 34 ∧
      (b64Char n).toNat ≠ 92 ∧ 32 ≤ (b64Char n).toNat := by
  unfold b64Char
  split_ifs with h1 h2 h3 h4
  · rw [charToNat_ofNat _ (Or.inl (by omega))]; omega
  · rw [charToNat_ofNat _ (Or.inl (by omega))]; omega
  · rw [charToNat_ofNat _ (Or.inl (by omega))]; omega
  · refine ⟨by decide, by decide, by decide, by decide⟩
  · refine ⟨by decide, by decide, by decide, by decide⟩

theorem b64Char_plain (n : Nat) : jsonPlainChar (b64Char n) = true := by
  obtain ⟨_, h2, h3, h4⟩ := b64Char_toNat n
  simp [jsonPlainChar, h2, h3, h4]

/-- Every character emitted by the base64 encoder is a plain ASCII
character. -/
theorem b64EncodeChunks_chars (bs : List Nat) :
    ∀ c ∈ b64EncodeChunks bs, jsonPlainChar c = true ∧ c.toNat < 128 := by
  induction bs using b64EncodeChunks.induct with
  | case1 x y z rest ih =>
    intro c hc
    simp only [b64EncodeChunks, List.mem_cons] at hc
    rcases hc with rfl | rfl | rfl | rfl | hc
    · exact ⟨b64Char_plain _, (b64Char_toNat _).1⟩
    · exact ⟨b64Char_plain _, (b64Char_toNat _).1⟩
    · exact ⟨b64Char_plain _, (b64Char_toNat _).1⟩
    · exact ⟨b64Char_plain _, (b64Char_toNat _).1⟩
    · exact ih c hc
  | case2 x y =>
    intro c hc
    simp only [b64EncodeChunks, List.mem_cons] at hc
    rcases hc with rfl | rfl | rfl | rfl | hc
    · exact ⟨b64Char_plain _, (b64Char_toNat _).1⟩
    · exact ⟨b64Char_plain _, (b64Char_toNat _).1⟩
    · exact ⟨b64Char_plain _, (b64Char_toNat _).1⟩
    · exact ⟨by decide, by decide⟩
    · simp at hc
  | case3 x =>
    intro c hc
    simp only [b64EncodeChunks, List.mem_cons] at hc
    rcases hc with rfl | rfl | rfl | rfl | hc
    · exact ⟨b64Char_plain _, (b64Char_toNat _).1⟩
    · exact ⟨b64Char_plain _, (b64Char_toNat _).1⟩
    · exact ⟨by decide, by decide⟩
    · exact ⟨by decide, by decide⟩
    · simp at hc
  | case4 =>
    intro c hc
    simp [b64EncodeChunks] at hc

/-- Base64 round trip: decoding (leniently, `=` skipped) what the encoder
produced returns the original bytes. -/
theorem b64_roundtrip : ∀ bs : List Nat, (∀ b ∈ bs, b < 256) →
    b64DecodeVals ((b64EncodeChunks bs).filterMap b64CharVal) = bs := by
  intro bs
  induction bs using b64EncodeChunks.induct with
  | case1 x y z rest ih =>
    intro h
    have hx : x < 256 := h x (by simp)
    have hy : y < 256 := h y (by simp)
    have hz : z < 256 := h z (by simp)
    simp only [b64EncodeChunks, List.filterMap_cons,
      b64CharVal_b64Char (x / 4) (by omega),
      b64CharVal_b64Char ((x % 4) * 16 + y / 16) (by omega),
      b64CharVal_b64Char ((y % 16) * 4 + z / 64) (by omega),
      b64CharVal_b64Char (z % 64) (by omega),
      b64DecodeVals]
    rw [ih (fun b hb => h b (by simp [hb]))]
    simp only [List.cons.injEq]
    refine ⟨by omega, by omega, by omega, trivial⟩
  | case2 x y =>
    intro h
    have hx : x < 256 := h x (by simp)
    have hy : y < 256 := h y (by simp)
    simp only [b64EncodeChunks, List.filterMap_cons,
      b64CharVal_b64Char (x / 4) (by omega),
      b64CharVal_b64Char ((x % 4) * 16 + y / 16) (by omega),
      b64CharVal_b64Char ((y % 16) * 4) (by omega),
      show b64CharVal '=' = none from rfl,
      List.filterMap_nil, b64DecodeVals]
    simp only [List.cons.injEq]
    refine ⟨by omega, by omega, trivial⟩
  | case3 x =>
    intro h
    have hx : x < 256 := h x (by simp)
    simp only [b64EncodeChunks, List.filterMap_cons,
      b64CharVal_b64Char (x / 4) (by omega),
      b64CharVal_b64Char ((x % 4) * 16) (by omega),
      show b64CharVal '=' = none from rfl,
      List.filterMap_nil, b64DecodeVals]
    simp only [List.cons.injEq]
    refine ⟨by omega, trivial⟩
  | case4 =>
    intro _
    rfl

/-- ASCII text UTF-8-encodes to one byte per character. -/
theorem utf8EncodeList_ascii : ∀ cs : List Char, (∀ c ∈ cs, c.toNat < 128) →
    utf8EncodeList cs = cs.map Char.toNat := by
  intro cs
  induction cs with
  | nil => intro _; rfl
  | cons c rest ih =>
    intro h
    have hc : c.toNat < 128 := h c (by simp)
    simp only [utf8EncodeList, List.flatMap_cons, List.map_cons]
    rw [show utf8EncodeCharB c = [c.toNat] by simp [utf8EncodeCharB, hc]]
    simp only [List.singleton_append, List.cons.injEq, true_and]
    exact ih (fun c hc => h c (by simp [hc]))

/-- One ASCII byte decodes to its character and the decoder continues. -/
theorem utf8DecodeLossy_ascii_cons (b : Nat) (l : List Nat) (h : b < 128) :
    utf8DecodeLossy (b :: l) = Char.ofNat b :: utf8DecodeLossy l := by
  rw [utf8DecodeLossy.eq_def]
  simp [h]

/-- UTF-8 round trip for ASCII text. -/
theorem utf8_ascii_roundtrip : ∀ cs : List Char, (∀ c ∈ cs, c.toNat < 128) →
    utf8DecodeLossy (utf8EncodeList cs) = cs := by
  intro cs
  induction cs with
  | nil => intro _; rfl
  | cons c rest ih =>
    intro h
    have hc : c.toNat < 128 := h c (by simp)
    have hrec := ih (fun c hm => h c (by simp [hm]))
    calc utf8DecodeLossy (utf8EncodeList (c :: rest))
        = utf8DecodeLossy (c.toNat :: utf8EncodeList rest) := by
          rw [show utf8EncodeList (c :: rest) =
              utf8EncodeCharB c ++ utf8EncodeList rest from rfl,
            show utf8EncodeCharB c = [c.toNat] by simp [utf8EncodeCharB, hc],
            List.singleton_append]
      _ = Char.ofNat c.toNat :: utf8DecodeLossy (utf8EncodeList rest) :=
          utf8DecodeLossy_ascii_cons _ _ hc
      _ = c :: rest := by rw [Char.ofNat_toNat, hrec]

theorem jsonEscapeChar_plain (c : Char) (h : jsonPlainChar c = true) :
    jsonEscapeChar c = [c] := by
  have h34 : c ≠ '"' := fun hh => by rw [hh] at h; exact absurd h (by decide)
  have h92 : c ≠ '\\' := fun hh => by rw [hh] at h; exact absurd h (by decide)
  have hn : c ≠ '\n' := fun hh => by rw [hh] at h; exact absurd h (by decide)
  have ht : c ≠ '\t' := fun hh => by rw [hh] at h; exact absurd h (by decide)
  have hr : c ≠ '\r' := fun hh => by rw [hh] at h; exact absurd h (by decide)
  have hge : 32 ≤ c.toNat := by
    simp only [jsonPlainChar, Bool.and_eq_true, decide_eq_true_eq] at h
    exact h.2
  have h8 : ¬ c.toNat = 8 := by omega
  have h12 : ¬ c.toNat = 12 := by omega
  have hlt : ¬ c.toNat < 32 := by omega
  simp [jsonEscapeChar, h34, h92, hn, ht, hr, h8, h12, hlt]

theorem escape_plain_list : ∀ l : List Char,
    (∀ c ∈ l, jsonPlainChar c = true) → l.flatMap jsonEscapeChar = l := by
  intro l
  induction l with
  | nil => intro _; rfl
  | cons c rest ih =>
    intro h
    simp only [List.flatMap_cons, jsonEscapeChar_plain c (h c (by simp)),
      List.singleton_append, List.cons.injEq, true_and]
    exact ih (fun c hc => h c (by simp [hc]))

/-- A quote-terminated run of plain characters parses back to itself. -/
theorem parseStringBody_plain : ∀ cs : List Char,
    (∀ c ∈ cs, jsonPlainChar c = true) → ∀ rest,
    parseStringBody (cs ++ '"' :: rest) = some (cs, rest) := by
  intro cs
  induction cs with
  | nil =>
    intro _ rest
    rw [List.nil_append, parseStringBody.eq_def]
    simp
  | cons c cs2 ih =>
    intro h rest
    have hc := h c (by simp)
    have h1 : c ≠ '"' := fun hh => by rw [hh] at hc; exact absurd hc (by decide)
    have h2 : c ≠ '\\' := fun hh => by rw [hh] at hc; exact absurd hc (by decide)
    rw [List.cons_append, parseStringBody.eq_def]
    simp only [if_neg h1, if_neg h2]
    rw [ih (fun c hm => h c (by simp [hm])) rest]
    rfl

/-- The serialized envelope `{"bytes":"<plain>"}` character by character. -/
theorem envelope_data (bstr : String)
    (hb : ∀ c ∈ bstr.data, jsonPlainChar c = true) :
    (jsonStringify (.obj [("bytes", .str bstr)])).data =
      '{' :: '"' :: 'b' :: 'y' :: 't' :: 'e' :: 's' :: '"' :: ':' :: '"' ::
        (bstr.data ++ ['"', '}']) := by
  have hesc : bstr.data.flatMap jsonEscapeChar = bstr.data :=
    escape_plain_list _ hb
  calc (jsonStringify (.obj [("bytes", .str bstr)])).data
      = ("\x7b" ++ (("\"" ++ jsonEscapeNoDelim "bytes" ++ "\"") ++ ":" ++
          ("\"" ++ jsonEscapeNoDelim bstr ++ "\"")) ++ "\x7d").data := rfl
    _ = '{' :: '"' :: 'b' :: 'y' :: 't' :: 'e' :: 's' :: '"' :: ':' :: '"' ::
          (bstr.data ++ ['"', '}']) := by
        simp only [String.data_append,
          show (jsonEscapeNoDelim "bytes") = "bytes" from rfl,
          show (jsonEscapeNoDelim bstr).data = bstr.data.flatMap jsonEscapeChar from rfl,
          hesc,
          show ("\x7b" : String).data = ['{'] from rfl,
          show ("\x7d" : String).data = ['}'] from rfl,
          show ("\"" : String).data = ['"'] from rfl,
          show (":" : String).data = [':'] from rfl,
          show ("bytes" : String).data = ['b', 'y', 't', 'e', 's'] from rfl]
        simp

/-- Parsing the serialized envelope: three fuel levels suffice
(value → members → value-of-member). -/
theorem parseJValue_envelope (f : Nat) (b : List Char)
    (hb : ∀ c ∈ b, jsonPlainChar c = true) :
    parseJValue (f + 3)
      ('{' :: '"' :: 'b' :: 'y' :: 't' :: 'e' :: 's' :: '"' :: ':' :: '"' ::
        (b ++ ['"', '}'])) =
      some (.obj [("bytes", .str ⟨b⟩)], []) := by
  have hs := parseStringBody_plain b hb ['}']
  have hk : parseStringBody
      ('b' :: 'y' :: 't' :: 'e' :: 's' :: '"' :: ':' :: '"' ::
        (b ++ ['"', '}'])) =
      some (['b', 'y', 't', 'e', 's'], ':' :: '"' :: (b ++ ['"', '}'])) := by
    simpa using parseStringBody_plain ['b', 'y', 't', 'e', 's'] (by decide)
      (':' :: '"' :: (b ++ ['"', '}']))
  simp [parseJValue, parseJMembers, skipWs, jsonWsChar, List.dropWhile, hk, hs]

theorem jsonParse_mk (L : List Char) :
    jsonParse ⟨L⟩ =
      (match parseJValue (L.length + 1) L with
       | some (v, rest) => if skipWs rest = [] then some v else none
       | none => none) := rfl

/-- The three-layer unwrap inverts the three-layer wrap: for an ASCII
provider-body text, `decodeBody` applied to the UTF-8 bytes of the JSON
envelope whose `bytes` field is the base64 of the UTF-8 of that text
recovers `JSON.parse` of the text. -/
theorem decodeBody_roundtrip (bodyText : String)
    (hascii : ∀ c ∈ bodyText.data, c.toNat < 128) :
    decodeBody (utf8Encode (jsonStringify
      (.obj [("bytes", .str (b64Encode (utf8Encode bodyText)))]))) =
      (match jsonParse bodyText with
       | none => Except.error StreamError.jsonErr
       | some body => Except.ok body) := by
  have hchars : ∀ c ∈ (b64Encode (utf8Encode bodyText)).data,
      jsonPlainChar c = true ∧ c.toNat < 128 :=
    fun c hc => b64EncodeChunks_chars (utf8Encode bodyText) c hc
  have hdata := envelope_data (b64Encode (utf8Encode bodyText))
    (fun c hc => (hchars c hc).1)
  have hlist : ∀ c ∈ ('{' :: '"' :: 'b' :: 'y' :: 't' :: 'e' :: 's' :: '"' ::
      ':' :: '"' :: ((b64Encode (utf8Encode bodyText)).data ++ ['"', '}'])),
      c.toNat < 128 := by
    intro c hc
    simp only [List.mem_cons, List.mem_append, List.not_mem_nil,
      or_false] at hc
    rcases hc with rfl | rfl | rfl | rfl | rfl | rfl | rfl | rfl | rfl | rfl |
      h | rfl | rfl
    · decide
    · decide
    · decide
    · decide
    · decide
    · decide
    · decide
    · decide
    · decide
    · decide
    · exact (hchars c h).2
    · decide
    · decide
  have hbytes : ∀ x ∈ utf8Encode bodyText, x < 256 := by
    rw [show utf8Encode bodyText = utf8EncodeList bodyText.data from rfl,
      utf8EncodeList_ascii bodyText.data hascii]
    intro x hx
    obtain ⟨c, hc, rfl⟩ := List.mem_map.mp hx
    have := hascii c hc
    omega
  have h1 : jsonParse ⟨utf8DecodeLossy (utf8Encode (jsonStringify
      (.obj [("bytes", .str (b64Encode (utf8Encode bodyText)))])))⟩ =
      some (.obj [("bytes", .str (b64Encode (utf8Encode bodyText)))]) := by
    rw [show utf8Encode (jsonStringify
        (.obj [("bytes", .str (b64Encode (utf8Encode bodyText)))])) =
        utf8EncodeList (jsonStringify
        (.obj [("bytes", .str (b64Encode (utf8Encode bodyText)))])).data
      from rfl, hdata, utf8_ascii_roundtrip _ hlist, jsonParse_mk]
    rw [show ('{' :: '"' :: 'b' :: 'y' :: 't' :: 'e' :: 's' :: '"' :: ':' ::
        '"' :: ((b64Encode (utf8Encode bodyText)).data ++ ['"', '}'])).length
        + 1 = ((b64Encode (utf8Encode bodyText)).data.length + 10) + 3 by
      simp [List.length_append]]
    rw [parseJValue_envelope ((b64Encode (utf8Encode bodyText)).data.length
      + 10) (b64Encode (utf8Encode bodyText)).data
      (fun c hc => (hchars c hc).1)]
    rfl
  have h2 : b64DecodeLenient (b64Encode (utf8Encode bodyText)) =
      utf8Encode bodyText := b64_roundtrip _ hbytes
  have h3 : utf8DecodeLossy (utf8Encode bodyText) = bodyText.data :=
    utf8_ascii_roundtrip _ hascii
  unfold decodeBody
  rw [h1]
  simp only [jsProp, lookupField, if_true]
  rw [h2, h3, show (⟨bodyText.data⟩ : String) = bodyText from rfl]

/-- C5: the three-layer payload encoding round-trips — for a payload built
as UTF-8(JSON envelope {bytes: base64(UTF-8(provider JSON text))}), the
decode loop's `decodeBody` unwinds UTF-8, JSON, base64, UTF-8, JSON in order
and recovers `JSON.parse` of the provider text (shown for ASCII provider
texts); in particular the synthetic chunk/application-json frame wrapping
`{outputText:"hi"}` decodes on the amazon path to the TextChunk "hi". -/
theorem stream_decode_roundtrip :
    (∀ bodyText : String, (∀ c ∈ bodyText.data, c.toNat < 128) →
      decodeBody (utf8Encode (jsonStringify
        (.obj [("bytes", .str (b64Encode (utf8Encode bodyText)))]))) =
        (match jsonParse bodyText with
         | none => Except.error StreamError.jsonErr
         | some body => Except.ok body)) ∧
    streamEvents "amazon" noObserver [syntheticEvent] =
      ([⟨some (.str "hi")⟩], [some (.str "hi")], none) :=
  ⟨decodeBody_roundtrip, rfl⟩

/-- Witness for C5 at the concrete provider body `{outputText:"hi"}`. -/
theorem stream_decode_roundtrip_witness :
    decodeBody (utf8Encode (jsonStringify (.obj [("bytes",
        .str (b64Encode (utf8Encode (jsonStringify innerBodyHi))))]))) =
      (match jsonParse (jsonStringify innerBodyHi) with
       | none => Except.error StreamError.jsonErr
       | some body => Except.ok body) :=
  stream_decode_roundtrip.1 (jsonStringify innerBodyHi) (by decide)
